import Mathlib

/-!
Verification of the Monty Hall game core from
`src/Solution/MontyHallGame/MontyHallGame/src/main.c`.

The core consists of the pure door-reveal function `pick_open_door` and the
game controller `handle_door_press`, a finite-state machine over the record
`monty_hall_state` that owns the round fields and four lifetime counters.
All counters in the C source are `uint32_t`, so every counter increment here
is taken modulo `2 ^ 32`.  The C standard-library call `rand()` returns a
non-negative value; it is modelled by an explicit natural-number argument,
one per potential call site (the winning-door draw at round start and the
tie-break inside `pick_open_door`).
-/

/-- Modulus of the `uint32_t` counters of the C source, the numeral
`4294967296 = 2 ^ 32`. -/
def UINT32_MOD : Nat := 4294967296

/-- Lower bound of the door-press events, from `enum DOOR_PRESSED_EVENTS`. -/
def DOOR_PRESSED_MIN : Nat := 1

/-- Upper bound of the door-press events, from `enum DOOR_PRESSED_EVENTS`. -/
def DOOR_PRESSED_MAX : Nat := 3

/-- Sentinel meaning that no door was pressed, from `enum DOOR_PRESSED_EVENTS`
(the enumerator after `DOOR_PRESSED_MAX = 3`, hence `4`). -/
def DOOR_NOT_PRESSED : Nat := 4

/-- A structurally valid door identifier, the range check used by
`ProcessButtonEvt` in the C source. -/
def valid_door (d : Nat) : Prop :=
  DOOR_PRESSED_MIN ≤ d ∧ d ≤ DOOR_PRESSED_MAX

instance (d : Nat) : Decidable (valid_door d) :=
  inferInstanceAs (Decidable (DOOR_PRESSED_MIN ≤ d ∧ d ≤ DOOR_PRESSED_MAX))

/-- The controller states, from `typedef enum ... MONTY_HALL_STATE`. -/
inductive MONTY_HALL_STATE where
  | MONTY_GAME_STARTED
  | FIRST_DOOR_OPEN
  | GAME_OVER_WON
  | GAME_OVER_LOST
deriving DecidableEq, Repr

/-- The controller record, from `typedef struct ... monty_hall_state`:
four lifetime counters plus the state tag and the three per-round door
fields.  The C fields are `uint32_t`; they are modelled as `Nat`, with the
counter increments reduced modulo `2 ^ 32` in `handle_door_press`. -/
structure monty_hall_state where
  number_of_games : Nat
  times_switched : Nat
  times_switched_won : Nat
  times_won : Nat
  state : MONTY_HALL_STATE
  first_door : Nat
  open_door : Nat
  winning_door : Nat
deriving DecidableEq, Repr

/-- Translation of `pick_open_door` from the C source.  `random_value`
models the result of the `rand()` call in the tie-break branch; the C test
`random_value & 0x1` is the parity test `random_value % 2 = 1`. -/
def pick_open_door (winning_door first_door random_value : Nat) : Nat :=
  if first_door ≠ winning_door then
    if first_door = 1 then
      if winning_door = 2 then 3 else 2
    else if first_door = 2 then
      if winning_door = 3 then 1 else 3
    else if first_door = 3 then
      if winning_door = 1 then 2 else 1
    else
      DOOR_NOT_PRESSED
  else
    let open_door := 1
    let open_door := if open_door = winning_door then open_door + 1 else open_door
    let open_door := if random_value % 2 = 1 then open_door + 1 else open_door
    let open_door := if open_door = winning_door then open_door + 1 else open_door
    open_door

/-- Translation of `handle_door_press` from the C source.  The state record
is passed and returned by value instead of through a pointer (the `NULL`
pointer guard of the C source has no counterpart); the returned `Int` is the
C return value, `-1` for a rejected press and `0` otherwise.  `rand_winning`
models the `rand()` call drawing the winning door at round start and
`rand_reveal` the `rand()` call that `pick_open_door` may consume.  The
`uint32_t` counter increments are reduced modulo `2 ^ 32`. -/
def handle_door_press (p_game_state : monty_hall_state) (new_door_press : Nat)
    (rand_winning rand_reveal : Nat) : Int × monty_hall_state :=
  match p_game_state.state with
  | .MONTY_GAME_STARTED =>
      let winning := rand_winning % 3 + 1
      (0, { p_game_state with
              winning_door := winning
              first_door := new_door_press
              state := .FIRST_DOOR_OPEN
              open_door := pick_open_door winning new_door_press rand_reveal })
  | .FIRST_DOOR_OPEN =>
      if p_game_state.open_door = new_door_press then
        (-1, p_game_state)
      else
        let s1 :=
          if p_game_state.winning_door = new_door_press then
            { p_game_state with
                state := .GAME_OVER_WON
                times_won := (p_game_state.times_won + 1) % UINT32_MOD }
          else
            { p_game_state with state := .GAME_OVER_LOST }
        let s2 :=
          if s1.first_door ≠ new_door_press then
            let s1a := { s1 with
                           times_switched := (s1.times_switched + 1) % UINT32_MOD }
            if s1a.state = .GAME_OVER_WON then
              { s1a with
                  times_switched_won := (s1a.times_switched_won + 1) % UINT32_MOD }
            else
              s1a
          else
            s1
        (0, { s2 with number_of_games := (s2.number_of_games + 1) % UINT32_MOD })
  | .GAME_OVER_WON =>
      (0, { p_game_state with state := .MONTY_GAME_STARTED })
  | .GAME_OVER_LOST =>
      (0, { p_game_state with state := .MONTY_GAME_STARTED })

/-- The initial controller state, from the initializer of `game_state` in
`main`: all four counters zero, state `MONTY_GAME_STARTED`, and the three
door fields set to the sentinel `DOOR_NOT_PRESSED`. -/
def initial_game_state : monty_hall_state :=
  { number_of_games := 0
    times_switched := 0
    times_switched_won := 0
    times_won := 0
    state := .MONTY_GAME_STARTED
    first_door := DOOR_NOT_PRESSED
    open_door := DOOR_NOT_PRESSED
    winning_door := DOOR_NOT_PRESSED }

/-- One dispatched press: a pressed door together with the two random values
the controller may consume while processing it. -/
def press_step (s : monty_hall_state) (p : Nat × Nat × Nat) : monty_hall_state :=
  (handle_door_press s p.1 p.2.1 p.2.2).2

/-- Processing a sequence of dispatched presses, mirroring the event loop in
`main` that feeds `handle_door_press` one press at a time. -/
def run (s : monty_hall_state) (l : List (Nat × Nat × Nat)) : monty_hall_state :=
  l.foldl press_step s

/-- Every press of the sequence carries a structurally valid door. -/
def valid_seq (l : List (Nat × Nat × Nat)) : Prop :=
  ∀ p ∈ l, valid_door p.1

instance (l : List (Nat × Nat × Nat)) : Decidable (valid_seq l) :=
  inferInstanceAs (Decidable (∀ p ∈ l, valid_door p.1))

/-- A controller state reachable from the initial state by some sequence of
structurally valid presses. -/
def Reachable (s : monty_hall_state) : Prop :=
  ∃ l, valid_seq l ∧ run initial_game_state l = s

/-- The counter invariants claimed by the specification. -/
def counters_inv (s : monty_hall_state) : Prop :=
  s.times_won ≤ s.number_of_games ∧
  s.times_switched_won ≤ s.times_switched ∧
  s.times_switched ≤ s.number_of_games

instance (s : monty_hall_state) : Decidable (counters_inv s) :=
  inferInstanceAs (Decidable (_ ∧ _ ∧ _))

/-- The per-round door invariant: while a round is awaiting the switch/stay
decision, all three door fields are valid doors and the open door differs
from both the first pick and the winning door. -/
def round_inv (s : monty_hall_state) : Prop :=
  s.state = .FIRST_DOOR_OPEN →
    valid_door s.first_door ∧ valid_door s.winning_door ∧
    valid_door s.open_door ∧
    s.open_door ≠ s.first_door ∧ s.open_door ≠ s.winning_door

/-- Three presses playing one complete round that is won by staying: press
door 1 with a random draw making door 1 the winning door, stay on door 1,
then acknowledge the result. -/
def win_round : List (Nat × Nat × Nat) := [(1, 0, 0), (1, 0, 0), (1, 0, 0)]

/-- Three presses playing one complete round that is lost by staying: press
door 1 with a random draw making door 2 the winning door, stay on door 1,
then acknowledge the result. -/
def lose_round : List (Nat × Nat × Nat) := [(1, 1, 0), (1, 0, 0), (1, 0, 0)]

/-- A press sequence with exactly `2 ^ 32` completed rounds, the first one
won and all others lost, so that `number_of_games` wraps around to `0` while
`times_won` stays at `1`. -/
def wrap_seq : List (Nat × Nat × Nat) :=
  win_round ++ (List.replicate (UINT32_MOD - 1) lose_round).flatten

/-- The controller state recurring between the lost rounds of `wrap_seq`:
`g` games played, one of them won, never switched, back in
`MONTY_GAME_STARTED` with the stale round fields of a lost round. -/
def lose_loop_state (g : Nat) : monty_hall_state :=
  ⟨g, 0, 0, 1, .MONTY_GAME_STARTED, 1, 3, 2⟩

theorem pick_open_door_mod_two (w f r : Nat) :
    pick_open_door w f r = pick_open_door w f (r % 2) := by
  unfold pick_open_door
  simp only [Nat.mod_mod_of_dvd r (dvd_refl 2)]

theorem pick_open_door_spec (w f : Nat) (hw : valid_door w) (hf : valid_door f)
    (r : Nat) :
    valid_door (pick_open_door w f r) ∧
    pick_open_door w f r ≠ w ∧ pick_open_door w f r ≠ f := by
  rw [pick_open_door_mod_two]
  have hw3 : w = 1 ∨ w = 2 ∨ w = 3 := by
    rcases hw with ⟨h1, h2⟩
    unfold DOOR_PRESSED_MIN at h1
    unfold DOOR_PRESSED_MAX at h2
    omega
  have hf3 : f = 1 ∨ f = 2 ∨ f = 3 := by
    rcases hf with ⟨h1, h2⟩
    unfold DOOR_PRESSED_MIN at h1
    unfold DOOR_PRESSED_MAX at h2
    omega
  have hr : r % 2 = 0 ∨ r % 2 = 1 := Nat.mod_two_eq_zero_or_one r
  rcases hw3 with rfl | rfl | rfl <;> rcases hf3 with rfl | rfl | rfl <;>
    rcases hr with h | h <;> rw [h] <;> decide

/-- C1: for every winning door and first door both in the valid range and
every value returned by the random source, `pick_open_door` returns a door
in the valid range that equals neither the winning door nor the first
door. -/
theorem claim_C1 (w f r : Nat) (hw : valid_door w) (hf : valid_door f) :
    valid_door (pick_open_door w f r) ∧
    pick_open_door w f r ≠ w ∧ pick_open_door w f r ≠ f :=
  pick_open_door_spec w f hw hf r

theorem claim_C1_witness :
    valid_door 2 ∧ valid_door 2 ∧
    (valid_door (pick_open_door 2 2 7) ∧
     pick_open_door 2 2 7 ≠ 2 ∧ pick_open_door 2 2 7 ≠ 2) :=
  ⟨by decide, by decide, claim_C1 2 2 7 (by decide) (by decide)⟩

/-- C2: when the first door equals the winning door, the two parities of the
random value fed to `pick_open_door` produce exactly the two doors different
from the winning door: the two parities give two distinct doors, together
they are precisely the valid doors other than the winning one, and every
random value reduces to one of the two parities, so no other door is ever
returned. -/
theorem claim_C2 (w : Nat) (hw : valid_door w) :
    pick_open_door w w 0 ≠ pick_open_door w w 1 ∧
    ({pick_open_door w w 0, pick_open_door w w 1} : Finset Nat) =
      ({1, 2, 3} : Finset Nat).erase w ∧
    ∀ r : Nat, pick_open_door w w r = pick_open_door w w (r % 2) := by
  have hw3 : w = 1 ∨ w = 2 ∨ w = 3 := by
    rcases hw with ⟨h1, h2⟩
    unfold DOOR_PRESSED_MIN at h1
    unfold DOOR_PRESSED_MAX at h2
    omega
  refine ⟨?_, ?_, fun r => pick_open_door_mod_two w w r⟩ <;>
    rcases hw3 with rfl | rfl | rfl <;> decide

theorem claim_C2_witness :
    valid_door 1 ∧
    pick_open_door 1 1 0 ≠ pick_open_door 1 1 1 ∧
    ({pick_open_door 1 1 0, pick_open_door 1 1 1} : Finset Nat) =
      ({1, 2, 3} : Finset Nat).erase 1 ∧
    pick_open_door 1 1 6 = pick_open_door 1 1 (6 % 2) :=
  ⟨by decide, (claim_C2 1 (by decide)).1, (claim_C2 1 (by decide)).2.1,
    (claim_C2 1 (by decide)).2.2 6⟩

/-- C4: in `FIRST_DOOR_OPEN`, pressing the currently open door is rejected
with return value `-1`, distinct from the `0` of a state-advancing press,
and leaves the whole controller record unchanged; iterating the press any
number of times still leaves the record unchanged. -/
theorem claim_C4 (s : monty_hall_state) (d r1 r2 : Nat)
    (hs : s.state = .FIRST_DOOR_OPEN) (hd : d = s.open_door) :
    handle_door_press s d r1 r2 = (-1, s) ∧
    ∀ n : Nat, (fun t => (handle_door_press t d r1 r2).2)^[n] s = s := by
  have h1 : handle_door_press s d r1 r2 = (-1, s) := by
    simp [handle_door_press, hs, hd]
  refine ⟨h1, ?_⟩
  intro n
  induction n with
  | zero => rfl
  | succ n ih =>
      rw [Function.iterate_succ_apply, show (handle_door_press s d r1 r2).2 = s
        from by rw [h1]]
      exact ih

/-- C9: from `GAME_OVER_WON` or `GAME_OVER_LOST`, any valid press returns
`0` and moves the state back to `MONTY_GAME_STARTED`, changing no other
field: counters and the three door fields are untouched. -/
theorem claim_C9 (s : monty_hall_state) (d r1 r2 : Nat)
    (hs : s.state = .GAME_OVER_WON ∨ s.state = .GAME_OVER_LOST)
    (hd : valid_door d) :
    handle_door_press s d r1 r2 = (0, { s with state := .MONTY_GAME_STARTED }) := by
  rcases hs with h | h <;> simp [handle_door_press, h]

/-- C7: from `MONTY_GAME_STARTED`, any valid press `d` returns `0` and moves
to `FIRST_DOOR_OPEN`, drawing the winning door as `rand % 3 + 1` (one of the
three valid doors), storing `d` as the first door and
`pick_open_door winning d` as the open door, while leaving every counter
unchanged. -/
theorem claim_C7 (s : monty_hall_state) (d r1 r2 : Nat)
    (hs : s.state = .MONTY_GAME_STARTED) (hd : valid_door d) :
    handle_door_press s d r1 r2 =
      (0, { s with
              winning_door := r1 % 3 + 1
              first_door := d
              state := .FIRST_DOOR_OPEN
              open_door := pick_open_door (r1 % 3 + 1) d r2 }) ∧
    valid_door (r1 % 3 + 1) := by
  constructor
  · simp [handle_door_press, hs]
  · have : r1 % 3 < 3 := Nat.mod_lt r1 (by omega)
    unfold valid_door DOOR_PRESSED_MIN DOOR_PRESSED_MAX
    omega

theorem claim_C4_witness :
    (⟨4, 3, 2, 2, .FIRST_DOOR_OPEN, 1, 2, 1⟩ : monty_hall_state).state =
      .FIRST_DOOR_OPEN ∧
    (2 : Nat) = (⟨4, 3, 2, 2, .FIRST_DOOR_OPEN, 1, 2, 1⟩ : monty_hall_state).open_door ∧
    (handle_door_press ⟨4, 3, 2, 2, .FIRST_DOOR_OPEN, 1, 2, 1⟩ 2 5 6 =
      (-1, ⟨4, 3, 2, 2, .FIRST_DOOR_OPEN, 1, 2, 1⟩) ∧
    (fun t => (handle_door_press t 2 5 6).2)^[3]
      (⟨4, 3, 2, 2, .FIRST_DOOR_OPEN, 1, 2, 1⟩ : monty_hall_state) =
      ⟨4, 3, 2, 2, .FIRST_DOOR_OPEN, 1, 2, 1⟩) :=
  ⟨rfl, rfl,
    (claim_C4 ⟨4, 3, 2, 2, .FIRST_DOOR_OPEN, 1, 2, 1⟩ 2 5 6 rfl rfl).1,
    (claim_C4 ⟨4, 3, 2, 2, .FIRST_DOOR_OPEN, 1, 2, 1⟩ 2 5 6 rfl rfl).2 3⟩

theorem claim_C9_witness :
    (⟨1, 0, 0, 1, .GAME_OVER_WON, 1, 2, 1⟩ : monty_hall_state).state =
      .GAME_OVER_WON ∧
    valid_door 3 ∧
    handle_door_press ⟨1, 0, 0, 1, .GAME_OVER_WON, 1, 2, 1⟩ 3 9 9 =
      (0, ⟨1, 0, 0, 1, .MONTY_GAME_STARTED, 1, 2, 1⟩) :=
  ⟨rfl, by decide,
    claim_C9 ⟨1, 0, 0, 1, .GAME_OVER_WON, 1, 2, 1⟩ 3 9 9 (Or.inl rfl) (by decide)⟩

theorem claim_C7_witness :
    initial_game_state.state = .MONTY_GAME_STARTED ∧ valid_door 1 ∧
    (handle_door_press initial_game_state 1 0 0 =
      (0, { initial_game_state with
              winning_door := 0 % 3 + 1
              first_door := 1
              state := .FIRST_DOOR_OPEN
              open_door := pick_open_door (0 % 3 + 1) 1 0 }) ∧
     valid_door (0 % 3 + 1)) :=
  ⟨rfl, by decide, claim_C7 initial_game_state 1 0 0 rfl (by decide)⟩

theorem handle_round_inv (s : monty_hall_state) (d r1 r2 : Nat)
    (hd : valid_door d) (h : round_inv s) :
    round_inv (handle_door_press s d r1 r2).2 := by
  cases hstate : s.state with
  | MONTY_GAME_STARTED =>
      have hw : valid_door (r1 % 3 + 1) := by
        have : r1 % 3 < 3 := Nat.mod_lt r1 (by omega)
        unfold valid_door DOOR_PRESSED_MIN DOOR_PRESSED_MAX
        omega
      have hp := pick_open_door_spec (r1 % 3 + 1) d hw hd r2
      unfold round_inv
      intro _
      simp only [handle_door_press, hstate]
      exact ⟨hd, hw, hp.1, hp.2.2, hp.2.1⟩
  | FIRST_DOOR_OPEN =>
      by_cases hod : s.open_door = d
      · simpa [handle_door_press, hstate, hod] using h
      · unfold round_inv
        intro hcontra
        by_cases hw : s.winning_door = d <;> by_cases hf : s.first_door = d <;>
          simp [handle_door_press, hstate, hod, hw, hf] at hcontra
  | GAME_OVER_WON =>
      unfold round_inv
      intro hcontra
      simp [handle_door_press, hstate] at hcontra
  | GAME_OVER_LOST =>
      unfold round_inv
      intro hcontra
      simp [handle_door_press, hstate] at hcontra

theorem run_round_inv (l : List (Nat × Nat × Nat)) :
    ∀ s : monty_hall_state, valid_seq l → round_inv s → round_inv (run s l) := by
  induction l with
  | nil => exact fun s _ h => h
  | cons p t ih =>
      intro s hv h
      have hd : valid_door p.1 := hv p (List.mem_cons_self p t)
      have hv' : valid_seq t := fun q hq => hv q (List.mem_cons_of_mem p hq)
      exact ih (press_step s p) hv'
        (handle_round_inv s p.1 p.2.1 p.2.2 hd h)

theorem reachable_round_inv (s : monty_hall_state) (h : Reachable s) :
    round_inv s := by
  obtain ⟨l, hv, hrun⟩ := h
  rw [← hrun]
  exact run_round_inv l initial_game_state hv (fun hc => absurd hc (by decide))

/-- C6 (amended): in every reachable state that is awaiting the switch/stay
decision, the open door differs from the first pick and from the winning
door; the first pick and the winning door, however, may coincide. -/
theorem claim_C6 (s : monty_hall_state) (hs : Reachable s)
    (h : s.state = .FIRST_DOOR_OPEN) :
    s.open_door ≠ s.first_door ∧ s.open_door ≠ s.winning_door := by
  have hi := reachable_round_inv s hs h
  exact ⟨hi.2.2.2.1, hi.2.2.2.2⟩

/-- C6 counterexample: after the single valid press of door 1 with a random
draw that makes door 1 the winning door, the controller is in
`FIRST_DOOR_OPEN` with `first_door = winning_door`, so the three door fields
of this reachable state are not pairwise distinct. -/
theorem claim_C6_counterexample :
    Reachable (run initial_game_state [(1, 0, 0)]) ∧
    (run initial_game_state [(1, 0, 0)]).state = .FIRST_DOOR_OPEN ∧
    (run initial_game_state [(1, 0, 0)]).first_door =
      (run initial_game_state [(1, 0, 0)]).winning_door :=
  ⟨⟨[(1, 0, 0)], by decide, rfl⟩, by decide, by decide⟩

theorem claim_C6_witness :
    Reachable (run initial_game_state [(1, 2, 0)]) ∧
    (run initial_game_state [(1, 2, 0)]).state = .FIRST_DOOR_OPEN ∧
    ((run initial_game_state [(1, 2, 0)]).open_door ≠
       (run initial_game_state [(1, 2, 0)]).first_door ∧
     (run initial_game_state [(1, 2, 0)]).open_door ≠
       (run initial_game_state [(1, 2, 0)]).winning_door) :=
  ⟨⟨[(1, 2, 0)], by decide, rfl⟩, by decide,
    claim_C6 (run initial_game_state [(1, 2, 0)])
      ⟨[(1, 2, 0)], by decide, rfl⟩ (by decide)⟩

/-- C10: in every reachable state awaiting the switch/stay decision,
pressing the first door again (staying) is never rejected: the call returns
`0` and the state advances to `GAME_OVER_WON` or `GAME_OVER_LOST`. -/
theorem claim_C10 (s : monty_hall_state) (r1 r2 : Nat) (hs : Reachable s)
    (h : s.state = .FIRST_DOOR_OPEN) :
    (handle_door_press s s.first_door r1 r2).1 = 0 ∧
    ((handle_door_press s s.first_door r1 r2).2.state = .GAME_OVER_WON ∨
     (handle_door_press s s.first_door r1 r2).2.state = .GAME_OVER_LOST) := by
  have hi := reachable_round_inv s hs h
  have hod : ¬ s.open_door = s.first_door := hi.2.2.2.1
  by_cases hw : s.winning_door = s.first_door <;>
    simp [handle_door_press, h, hod, hw]

theorem claim_C10_witness :
    Reachable (run initial_game_state [(2, 1, 1)]) ∧
    (run initial_game_state [(2, 1, 1)]).state = .FIRST_DOOR_OPEN ∧
    ((handle_door_press (run initial_game_state [(2, 1, 1)])
        (run initial_game_state [(2, 1, 1)]).first_door 0 0).1 = 0 ∧
     ((handle_door_press (run initial_game_state [(2, 1, 1)])
         (run initial_game_state [(2, 1, 1)]).first_door 0 0).2.state =
        .GAME_OVER_WON ∨
      (handle_door_press (run initial_game_state [(2, 1, 1)])
         (run initial_game_state [(2, 1, 1)]).first_door 0 0).2.state =
        .GAME_OVER_LOST)) :=
  ⟨⟨[(2, 1, 1)], by decide, rfl⟩, by decide,
    claim_C10 (run initial_game_state [(2, 1, 1)]) 0 0
      ⟨[(2, 1, 1)], by decide, rfl⟩ (by decide)⟩

/-- C8 (amended): in `FIRST_DOOR_OPEN`, a valid press different from the
open door returns `0` and moves to `GAME_OVER_WON` exactly when the press is
the winning door and to `GAME_OVER_LOST` otherwise; `number_of_games` is
incremented by one modulo `2 ^ 32` in this single transition, `times_won` is
incremented by one modulo `2 ^ 32` iff the press is the winning door,
`times_switched` is incremented by one modulo `2 ^ 32` iff the press differs
from the first door, `times_switched_won` is incremented by one modulo
`2 ^ 32` iff the press differs from the first door and is the winning door;
and a press equal to the open door, which stays in `FIRST_DOOR_OPEN`,
updates no counter. -/
theorem claim_C8 (s : monty_hall_state) (d r1 r2 : Nat)
    (hs : s.state = .FIRST_DOOR_OPEN) (hd : valid_door d) :
    (d ≠ s.open_door →
      ((handle_door_press s d r1 r2).1 = 0 ∧
       (handle_door_press s d r1 r2).2.state =
         (if s.winning_door = d then .GAME_OVER_WON else .GAME_OVER_LOST) ∧
       (handle_door_press s d r1 r2).2.number_of_games =
         (s.number_of_games + 1) % UINT32_MOD ∧
       (handle_door_press s d r1 r2).2.times_won =
         (if s.winning_door = d then (s.times_won + 1) % UINT32_MOD
          else s.times_won) ∧
       (handle_door_press s d r1 r2).2.times_switched =
         (if s.first_door = d then s.times_switched
          else (s.times_switched + 1) % UINT32_MOD) ∧
       (handle_door_press s d r1 r2).2.times_switched_won =
         (if s.first_door ≠ d ∧ s.winning_door = d then
            (s.times_switched_won + 1) % UINT32_MOD
          else s.times_switched_won))) ∧
    (d = s.open_door →
      ((handle_door_press s d r1 r2).2.number_of_games = s.number_of_games ∧
       (handle_door_press s d r1 r2).2.times_won = s.times_won ∧
       (handle_door_press s d r1 r2).2.times_switched = s.times_switched ∧
       (handle_door_press s d r1 r2).2.times_switched_won =
         s.times_switched_won ∧
       (handle_door_press s d r1 r2).2.state = .FIRST_DOOR_OPEN)) := by
  constructor
  · intro hne
    have hod : ¬ s.open_door = d := fun hh => hne hh.symm
    by_cases hw : s.winning_door = d <;> by_cases hf : s.first_door = d <;>
      simp [handle_door_press, hs, hod, hw, hf]
  · intro heq
    subst heq
    simp [handle_door_press, hs]

/-- C8 counterexample: in a `FIRST_DOOR_OPEN` state whose `number_of_games`
is `2 ^ 32 - 1`, the valid press of door 1 (different from the open door 3)
completes the round, but the `uint32_t` counter wraps: `number_of_games`
becomes `0`, not the old value plus one. -/
theorem claim_C8_counterexample :
    (⟨UINT32_MOD - 1, 0, 0, 0, .FIRST_DOOR_OPEN, 1, 3, 2⟩ :
        monty_hall_state).state = .FIRST_DOOR_OPEN ∧
    valid_door 1 ∧
    (1 : Nat) ≠ (⟨UINT32_MOD - 1, 0, 0, 0, .FIRST_DOOR_OPEN, 1, 3, 2⟩ :
        monty_hall_state).open_door ∧
    (handle_door_press ⟨UINT32_MOD - 1, 0, 0, 0, .FIRST_DOOR_OPEN, 1, 3, 2⟩
        1 0 0).2.number_of_games = 0 ∧
    (handle_door_press ⟨UINT32_MOD - 1, 0, 0, 0, .FIRST_DOOR_OPEN, 1, 3, 2⟩
        1 0 0).2.number_of_games ≠
      (⟨UINT32_MOD - 1, 0, 0, 0, .FIRST_DOOR_OPEN, 1, 3, 2⟩ :
        monty_hall_state).number_of_games + 1 := by
  refine ⟨rfl, by decide, by decide, ?_, ?_⟩ <;> decide

theorem claim_C8_witness :
    (⟨5, 2, 1, 3, .FIRST_DOOR_OPEN, 1, 3, 2⟩ :
        monty_hall_state).state = .FIRST_DOOR_OPEN ∧
    valid_door 2 ∧
    ((2 : Nat) ≠ (⟨5, 2, 1, 3, .FIRST_DOOR_OPEN, 1, 3, 2⟩ :
        monty_hall_state).open_door →
      ((handle_door_press ⟨5, 2, 1, 3, .FIRST_DOOR_OPEN, 1, 3, 2⟩ 2 0 0).1 = 0 ∧
       (handle_door_press ⟨5, 2, 1, 3, .FIRST_DOOR_OPEN, 1, 3, 2⟩
           2 0 0).2.state =
         (if (⟨5, 2, 1, 3, .FIRST_DOOR_OPEN, 1, 3, 2⟩ :
              monty_hall_state).winning_door = 2 then .GAME_OVER_WON
          else .GAME_OVER_LOST) ∧
       (handle_door_press ⟨5, 2, 1, 3, .FIRST_DOOR_OPEN, 1, 3, 2⟩
           2 0 0).2.number_of_games = (5 + 1) % UINT32_MOD ∧
       (handle_door_press ⟨5, 2, 1, 3, .FIRST_DOOR_OPEN, 1, 3, 2⟩
           2 0 0).2.times_won =
         (if (⟨5, 2, 1, 3, .FIRST_DOOR_OPEN, 1, 3, 2⟩ :
              monty_hall_state).winning_door = 2 then (3 + 1) % UINT32_MOD
          else 3) ∧
       (handle_door_press ⟨5, 2, 1, 3, .FIRST_DOOR_OPEN, 1, 3, 2⟩
           2 0 0).2.times_switched =
         (if (⟨5, 2, 1, 3, .FIRST_DOOR_OPEN, 1, 3, 2⟩ :
              monty_hall_state).first_door = 2 then 2
          else (2 + 1) % UINT32_MOD) ∧
       (handle_door_press ⟨5, 2, 1, 3, .FIRST_DOOR_OPEN, 1, 3, 2⟩
           2 0 0).2.times_switched_won =
         (if (⟨5, 2, 1, 3, .FIRST_DOOR_OPEN, 1, 3, 2⟩ :
                monty_hall_state).first_door ≠ 2 ∧
              (⟨5, 2, 1, 3, .FIRST_DOOR_OPEN, 1, 3, 2⟩ :
                monty_hall_state).winning_door = 2 then
            (1 + 1) % UINT32_MOD
          else 1))) :=
  ⟨rfl, by decide,
    (claim_C8 ⟨5, 2, 1, 3, .FIRST_DOOR_OPEN, 1, 3, 2⟩ 2 0 0 rfl (by decide)).1⟩

/-- C5 counterexample: the sentinel `DOOR_NOT_PRESSED` passed to
`handle_door_press` in the initial `MONTY_GAME_STARTED` state is not
rejected: the call returns `0` (the success result), advances the state
machine to `FIRST_DOOR_OPEN`, and stores the sentinel into the round field
`first_door`. -/
theorem claim_C5_counterexample :
    (handle_door_press initial_game_state DOOR_NOT_PRESSED 0 0).1 = 0 ∧
    (handle_door_press initial_game_state DOOR_NOT_PRESSED 0 0).2.state =
      .FIRST_DOOR_OPEN ∧
    (handle_door_press initial_game_state DOOR_NOT_PRESSED 0 0).2.first_door =
      DOOR_NOT_PRESSED := by
  refine ⟨rfl, rfl, rfl⟩

/-- C5 (amended): `handle_door_press` applies no sentinel check; filtering
`DOOR_NOT_PRESSED` is left entirely to the caller (the event loop in `main`
dispatches only when `g_door_pressed` differs from the sentinel).  If the
sentinel does reach the controller in `MONTY_GAME_STARTED`, it is handled
like any other press: the call returns `0`, the state advances to
`FIRST_DOOR_OPEN`, the sentinel is stored into `first_door`, and
`pick_open_door` falls through all its branches so that `open_door` becomes
the sentinel as well; the counters are unchanged. -/
theorem claim_C5 (s : monty_hall_state) (r1 r2 : Nat)
    (hs : s.state = .MONTY_GAME_STARTED) :
    handle_door_press s DOOR_NOT_PRESSED r1 r2 =
      (0, { s with
              winning_door := r1 % 3 + 1
              first_door := DOOR_NOT_PRESSED
              state := .FIRST_DOOR_OPEN
              open_door := DOOR_NOT_PRESSED }) := by
  have h3 : r1 % 3 < 3 := Nat.mod_lt r1 (by omega)
  have hpick : pick_open_door (r1 % 3 + 1) DOOR_NOT_PRESSED r2 =
      DOOR_NOT_PRESSED := by
    have h4 : (4 : Nat) ≠ r1 % 3 + 1 := by omega
    simp [pick_open_door, DOOR_NOT_PRESSED, h4]
  simp [handle_door_press, hs, hpick]

theorem claim_C5_witness :
    initial_game_state.state = .MONTY_GAME_STARTED ∧
    handle_door_press initial_game_state DOOR_NOT_PRESSED 1 5 =
      (0, { initial_game_state with
              winning_door := 1 % 3 + 1
              first_door := DOOR_NOT_PRESSED
              state := .FIRST_DOOR_OPEN
              open_door := DOOR_NOT_PRESSED }) :=
  ⟨rfl, claim_C5 initial_game_state 1 5 rfl⟩

theorem handle_counters_step (s : monty_hall_state) (d r1 r2 : Nat)
    (hM : s.number_of_games + 1 < UINT32_MOD) (h : counters_inv s) :
    counters_inv (handle_door_press s d r1 r2).2 ∧
    (handle_door_press s d r1 r2).2.number_of_games ≤ s.number_of_games + 1 := by
  obtain ⟨h1, h2, h3⟩ := h
  unfold UINT32_MOD at hM
  cases hstate : s.state with
  | MONTY_GAME_STARTED =>
      refine ⟨⟨?_, ?_, ?_⟩, ?_⟩ <;>
        simp [handle_door_press, hstate, counters_inv] <;> omega
  | FIRST_DOOR_OPEN =>
      by_cases hod : s.open_door = d
      · refine ⟨⟨?_, ?_, ?_⟩, ?_⟩ <;>
          simp [handle_door_press, hstate, hod, counters_inv] <;> omega
      · by_cases hw : s.winning_door = d <;> by_cases hf : s.first_door = d <;>
          (refine ⟨⟨?_, ?_, ?_⟩, ?_⟩ <;>
            simp [handle_door_press, hstate, hod, hw, hf, counters_inv,
              UINT32_MOD] <;> omega)
  | GAME_OVER_WON =>
      refine ⟨⟨?_, ?_, ?_⟩, ?_⟩ <;>
        simp [handle_door_press, hstate, counters_inv] <;> omega
  | GAME_OVER_LOST =>
      refine ⟨⟨?_, ?_, ?_⟩, ?_⟩ <;>
        simp [handle_door_press, hstate, counters_inv] <;> omega

theorem run_counters (l : List (Nat × Nat × Nat)) :
    ∀ s : monty_hall_state, counters_inv s →
      s.number_of_games + l.length < UINT32_MOD →
      counters_inv (run s l) ∧
      (run s l).number_of_games ≤ s.number_of_games + l.length := by
  induction l with
  | nil =>
      intro s h _
      refine ⟨h, ?_⟩
      show s.number_of_games ≤ s.number_of_games + ([] : List (Nat × Nat × Nat)).length
      omega
  | cons p t ih =>
      intro s h hM
      rw [List.length_cons] at hM
      have hstep := handle_counters_step s p.1 p.2.1 p.2.2 (by omega) h
      have hrec := ih (press_step s p) hstep.1 (by
        have h2 := hstep.2
        unfold press_step
        omega)
      have hrw : run s (p :: t) = run (press_step s p) t := rfl
      rw [hrw, List.length_cons]
      refine ⟨hrec.1, ?_⟩
      have h2 := hstep.2
      have h3 := hrec.2
      unfold press_step at h2 h3 ⊢
      omega

/-- C3 (amended): for every sequence of structurally valid presses shorter
than `2 ^ 32` events, so that no `uint32_t` counter can wrap around, the
final state satisfies `times_won ≤ number_of_games` and
`times_switched_won ≤ times_switched ≤ number_of_games`; every prefix of
such a sequence also satisfies the hypotheses, so the invariants hold after
every press.  (At exactly `2 ^ 32` completed rounds `number_of_games` wraps
to `0` and the invariants can fail.) -/
theorem claim_C3 (l : List (Nat × Nat × Nat)) (hv : valid_seq l)
    (hlen : l.length < UINT32_MOD) :
    counters_inv (run initial_game_state l) := by
  refine (run_counters l initial_game_state (by decide) ?_).1
  show initial_game_state.number_of_games + l.length < UINT32_MOD
  have hg : initial_game_state.number_of_games = 0 := rfl
  omega

theorem claim_C3_witness :
    valid_seq [(1, 0, 0), (1, 0, 0)] ∧
    ([(1, 0, 0), (1, 0, 0)] : List (Nat × Nat × Nat)).length < UINT32_MOD ∧
    counters_inv (run initial_game_state [(1, 0, 0), (1, 0, 0)]) :=
  ⟨by decide, by decide,
    claim_C3 [(1, 0, 0), (1, 0, 0)] (by decide) (by decide)⟩

theorem run_append (s : monty_hall_state) (l1 l2 : List (Nat × Nat × Nat)) :
    run s (l1 ++ l2) = run (run s l1) l2 :=
  List.foldl_append press_step s l1 l2

theorem lose_round_from_start (s : monty_hall_state)
    (hs : s.state = .MONTY_GAME_STARTED) (hw : s.times_won = 1)
    (hsw : s.times_switched = 0) (hswv : s.times_switched_won = 0) :
    run s lose_round =
      lose_loop_state ((s.number_of_games + 1) % UINT32_MOD) := by
  obtain ⟨g, sw, swv, w, st, fd, od, wd⟩ := s
  simp only at hs hw hsw hswv
  subst hs hw hsw hswv
  simp [run, lose_round, press_step, handle_door_press, pick_open_door,
    lose_loop_state]

theorem lose_loop (n : Nat) :
    ∀ g : Nat, g < UINT32_MOD →
      run (lose_loop_state g) (List.replicate n lose_round).flatten =
        lose_loop_state ((g + n) % UINT32_MOD) := by
  induction n with
  | zero =>
      intro g hg
      show run (lose_loop_state g) ([] : List (List (Nat × Nat × Nat))).flatten =
        lose_loop_state ((g + 0) % UINT32_MOD)
      rw [Nat.add_zero, Nat.mod_eq_of_lt hg]
      rfl
  | succ n ih =>
      intro g hg
      rw [List.replicate_succ, List.flatten_cons, run_append,
        lose_round_from_start (lose_loop_state g) rfl rfl rfl rfl]
      have hg1 : (lose_loop_state g).number_of_games = g := rfl
      rw [hg1, ih ((g + 1) % UINT32_MOD) (Nat.mod_lt _ (by decide))]
      congr 1
      rw [Nat.mod_add_mod]
      congr 1
      omega

theorem wrap_run : run initial_game_state wrap_seq = lose_loop_state 0 := by
  have h1 : run initial_game_state win_round =
      ⟨1, 0, 0, 1, .MONTY_GAME_STARTED, 1, 2, 1⟩ := by decide
  have h2 : (UINT32_MOD - 1 : Nat) = 4294967294 + 1 := by decide
  rw [wrap_seq, run_append, h1, h2, List.replicate_succ, List.flatten_cons,
    run_append,
    lose_round_from_start ⟨1, 0, 0, 1, .MONTY_GAME_STARTED, 1, 2, 1⟩
      rfl rfl rfl rfl]
  have h3 : (((⟨1, 0, 0, 1, .MONTY_GAME_STARTED, 1, 2, 1⟩ :
      monty_hall_state).number_of_games + 1) % UINT32_MOD) = 2 := by decide
  rw [h3, lose_loop 4294967294 2 (by decide)]
  congr 1

/-- C3 counterexample: `wrap_seq` is a sequence of structurally valid
presses (every pressed door is door 1) that completes `2 ^ 32` rounds, the
first won and the rest lost.  After the final press the `uint32_t` counter
`number_of_games` has wrapped around to `0` while `times_won` is `1`, so
`times_won ≤ number_of_games` fails. -/
theorem claim_C3_counterexample :
    valid_seq wrap_seq ∧
    (run initial_game_state wrap_seq).times_won = 1 ∧
    (run initial_game_state wrap_seq).number_of_games = 0 := by
  refine ⟨?_, ?_, ?_⟩
  · intro p hp
    rw [wrap_seq, List.mem_append] at hp
    rcases hp with h | h
    · rw [win_round] at h
      simp only [List.mem_cons, List.not_mem_nil, or_false] at h
      rcases h with rfl | rfl | rfl <;> decide
    · rcases List.mem_flatten.1 h with ⟨l, hl, hpl⟩
      rw [List.eq_of_mem_replicate hl, lose_round] at hpl
      simp only [List.mem_cons, List.not_mem_nil, or_false] at hpl
      rcases hpl with rfl | rfl | rfl <;> decide
  · rw [wrap_run]
    rfl
  · rw [wrap_run]
    rfl
